import Mathlib

/-!
Shallow embedding of the SCASO grabber (src/scaso.py, src/constants.py) and
proofs about its specification.  Python strings are modelled as Lean
`String`/`List Char`, Python ints as `ℤ`, bytes as `List ℕ`, the filesystem
as a partial map from paths to file contents, and the network as an oracle
from URL and attempt number to the outcome of one HTTP GET.  The Python set
`wanted` of parse_page_range together with the final `sorted(wanted)` is
represented as a strictly sorted duplicate-free list with ordered
duplicate-dropping insertion, which realises exactly the same abstract set
semantics.
-/

set_option maxRecDepth 4000

namespace SCASO

/-- ASCII fragment of Python str whitespace: the characters stripped by
str.strip() and matched by the regex whitespace class. -/
def isPySpace (c : Char) : Bool :=
  c = ' ' || c = '\t' || c = '\n' || c = '\r' || c = '\x0b' || c = '\x0c'

/-- Python str.strip() on a character list. -/
def pyStripChars (cs : List Char) : List Char :=
  ((cs.dropWhile isPySpace).reverse.dropWhile isPySpace).reverse

/-- Python s.split(sep) for a one-character separator: all fields, empties kept. -/
def splitChar (sep : Char) : List Char → List (List Char)
  | [] => [[]]
  | c :: cs =>
    if c = sep then [] :: splitChar sep cs
    else
      match splitChar sep cs with
      | [] => [[c]]
      | g :: gs => (c :: g) :: gs

/-- Python part.split(sep, 1) for separator '-': the field before the first
dash and everything after it.  Only used when a dash is present. -/
def splitOnceDash : List Char → List Char × List Char
  | [] => ([], [])
  | c :: cs =>
    if c = '-' then ([], cs)
    else
      let p := splitOnceDash cs
      (c :: p.1, p.2)

/-- State after a digit in Python's integer-literal grammar: further digits,
with single underscores allowed only between digits. -/
def duAfterDigit : List Char → Bool
  | [] => true
  | c :: rest =>
    if c = '_' then
      match rest with
      | [] => false
      | d :: rest2 => d.isDigit && duAfterDigit rest2
    else
      c.isDigit && duAfterDigit rest

/-- Digit run accepted by Python int(): nonempty, starts with a digit,
underscores only single and between digits. -/
def duValid : List Char → Bool
  | [] => false
  | c :: rest => c.isDigit && duAfterDigit rest

/-- Numeric value of a digit run, ignoring underscores. -/
def digitsVal (cs : List Char) : ℕ :=
  (cs.filter (fun c => c ≠ '_')).foldl (fun acc c => 10 * acc + (c.toNat - ('0').toNat)) 0

/-- Python int(str) on ASCII text: strip whitespace, optional sign, digit run;
none models ValueError. -/
def pyIntChars (cs : List Char) : Option ℤ :=
  let t := pyStripChars cs
  match t with
  | '+' :: rest => if duValid rest then some ((digitsVal rest : ℤ)) else none
  | '-' :: rest => if duValid rest then some (-((digitsVal rest : ℤ))) else none
  | _ => if duValid t then some ((digitsVal t : ℤ)) else none

/-- Python format spec 02d applied to an integer: zero-pad to width two. -/
def pad2 (n : ℤ) : String :=
  if 0 ≤ n ∧ n < 10 then ("0") ++ toString n else toString n

/-- tuple(range(total_pages)): all 0-based indices, empty when nonpositive. -/
def fullRange (total : ℤ) : List ℤ :=
  (List.range total.toNat).map (fun (n : ℕ) => ((n : ℤ)))

/-- set.add on the sorted duplicate-free list representation. -/
def insertSorted (x : ℤ) : List ℤ → List ℤ
  | [] => [x]
  | y :: ys =>
    if x < y then x :: y :: ys
    else if x = y then y :: ys
    else y :: insertSorted x ys

/-- Adding the 0-based indices i, i+1, ..., i+n-1 to the set (the body of the
dashed-range loop of parse_page_range). -/
def insertRangeAux : ℕ → ℤ → List ℤ → List ℤ
  | 0, _, acc => acc
  | n + 1, i, acc => insertRangeAux n (i + 1) (insertSorted i acc)

/-- One comma token of the page-range spec (scaso.py lines 143-161): a dashed
range is clamped to start ≥ 1 and end ≤ total and contributes the 0-based
indices start-1..end-1 when nonempty; a single integer contributes its 0-based
index when within 1..total; tokens int() rejects are dropped. -/
def processToken (total : ℤ) (acc : List ℤ) (part : List Char) : List ℤ :=
  if part.contains '-' then
    let lr := splitOnceDash part
    match pyIntChars lr.1, pyIntChars lr.2 with
    | some l, some r =>
      let start := max 1 l
      let stop := min total r
      if start ≤ stop then insertRangeAux (stop + 1 - start).toNat (start - 1) acc else acc
    | _, _ => acc
  else
    match pyIntChars part with
    | some one => if 1 ≤ one ∧ one ≤ total then insertSorted (one - 1) acc else acc
    | none => acc

/-- The wanted index set accumulated over the stripped nonempty comma tokens
of a page-range spec (scaso.py lines 141-161), already in sorted order. -/
def resolveTokens (s : String) (total : ℤ) : List ℤ :=
  let parts := ((splitChar ',' s.data).map pyStripChars).filter (fun p => p ≠ [])
  parts.foldl (processToken total) []

/-- parse_page_range (scaso.py lines 127-164): 1-based range spec to sorted
0-based indices; absent or empty spec, and an empty resolved set, fall back to
the full range. -/
def parse_page_range (spec : Option String) (total_pages : ℤ) : List ℤ :=
  match spec with
  | none => fullRange total_pages
  | some s =>
    if s.data = [] then fullRange total_pages
    else
      let indices := resolveTokens s total_pages
      if indices ≠ [] then indices else fullRange total_pages

/-- JSON values as produced by Python json.loads (floats are not needed by
the manifests this development reasons about). -/
inductive JValue where
  | null : JValue
  | bool : Bool → JValue
  | int : ℤ → JValue
  | str : String → JValue
  | arr : List JValue → JValue
  | obj : List (String × JValue) → JValue

/-- Python dict lookup on the association-list representation; duplicate keys
keep the last binding, as json.loads does. -/
def lookupLast (kvs : List (String × JValue)) (key : String) : Option JValue :=
  (kvs.reverse.find? (fun kv => kv.1 = key)).map (fun kv => kv.2)

/-- Python value.get(key, default): attribute error unless the value is a
dict. -/
def dictGet (v : JValue) (key : String) (dflt : JValue) : Except String JValue :=
  match v with
  | .obj kvs => .ok ((lookupLast kvs key).getD dflt)
  | _ => .error ("AttributeError: get")

/-- Python iteration over a value: lists yield elements, dicts yield their
keys as strings, strings yield 1-character strings; other values raise
TypeError. -/
def iterItems (v : JValue) : Except String (List JValue) :=
  match v with
  | .arr xs => .ok xs
  | .obj kvs => .ok (kvs.map (fun kv => JValue.str kv.1))
  | .str s => .ok (s.data.map (fun c => JValue.str (String.mk [c])))
  | _ => .error ("TypeError: not iterable")

/-- Python item[key]: KeyError when absent, TypeError when item is not a
dict (string subscripts on non-dicts). -/
def getItem (v : JValue) (key : String) : Except String JValue :=
  match v with
  | .obj kvs =>
    match lookupLast kvs key with
    | some x => .ok x
    | none => .error ("KeyError")
  | _ => .error ("TypeError: not subscriptable")

/-- Python int(x) on a JSON value: ints pass through, booleans become 0/1,
numeric strings are parsed, everything else raises. -/
def pyIntConv (v : JValue) : Except String ℤ :=
  match v with
  | .int n => .ok n
  | .bool b => .ok (if b then 1 else 0)
  | .str s =>
    match pyIntChars s.data with
    | some n => .ok n
    | none => .error ("ValueError: invalid literal for int")
  | _ => .error ("TypeError: int argument")

/-- The list comprehension [int(item[page]) for item in space_list]
(scaso.py line 293); the first raising element aborts the whole
comprehension. -/
def extractPages : List JValue → Except String (List ℤ)
  | [] => .ok []
  | item :: rest =>
    match getItem item ("page") with
    | .error e => .error e
    | .ok p =>
      match pyIntConv p with
      | .error e => .error e
      | .ok n =>
        match extractPages rest with
        | .error e => .error e
        | .ok ns => .ok (n :: ns)

/-- Python max on a nonempty list (first element seeds the fold); the zero
default is never reached by the call sites, which guard for nonemptiness. -/
def pyMax : List ℤ → ℤ
  | [] => 0
  | h :: t => t.foldl max h

/-- space_url.rsplit(sep, 1)[0] for separator '/': everything before the last
slash, or the whole string when no slash occurs. -/
def beforeLastSlash (cs : List Char) : List Char :=
  if cs.contains '/' then ((cs.reverse.dropWhile (fun c => c ≠ '/')).tail).reverse
  else cs

/-- Base asset URL derived from the manifest URL (scaso.py line 300). -/
def deriveBase (space_url : String) : String :=
  String.mk (beforeLastSlash space_url.data) ++ ("/")

/-- derive_base_and_pages (scaso.py lines 274-301): base URL with trailing
slash and total page count max(pages)+1, or 0 when the page list is empty;
any exception while extracting becomes a RuntimeError result. -/
def derive_base_and_pages (space_url : String) (space_data : JValue) :
    Except String (String × ℤ) :=
  match dictGet space_data ("space") (JValue.arr []) with
  | .error e => .error e
  | .ok space_list =>
    match iterItems space_list with
    | .error e => .error e
    | .ok items =>
      match extractPages items with
      | .error e => .error e
      | .ok pages =>
        .ok (deriveBase space_url,
          match pages with
          | [] => 0
          | _ => pyMax pages + 1)

/-- A manifest whose array under the space key holds one object per page
index, used to state the Asset Locator claims. -/
def mkSpace (ns : List ℤ) : JValue :=
  JValue.obj [(("space"),
    JValue.arr (ns.map (fun n => JValue.obj [(("page"), JValue.int n)])))]

/-- Everything up to and including the first opening parenthesis, removed:
the effect of the first alternative of the regex in scaso.py line 263, which
can only match at the start of the string and needs at least one
non-parenthesis character before the parenthesis. -/
def stripCallbackHead (cs : List Char) : List Char :=
  match cs with
  | [] => []
  | c :: _ =>
    if c = '(' then cs
    else if cs.contains '(' then dropThroughParen cs
    else cs
where
  dropThroughParen : List Char → List Char
    | [] => []
    | c :: rest => if c = '(' then rest else dropThroughParen rest

/-- The second alternative of the regex in scaso.py line 263: one closing
parenthesis plus an optional semicolon, anchored at the end of the string,
where the dollar anchor also matches just before one trailing newline;
matching on the reversed text inspects the string from its end. -/
def stripCallbackTail (cs : List Char) : List Char :=
  match cs.reverse with
  | ';' :: ')' :: rest => rest.reverse
  | ')' :: rest => rest.reverse
  | '\n' :: ';' :: ')' :: rest => ('\n' :: rest).reverse
  | '\n' :: ')' :: rest => ('\n' :: rest).reverse
  | _ => cs

/-- The JSONP unwrap of fetch_space (scaso.py line 263):
re.sub of both regex alternatives applied to the response text. -/
def unwrapJsonp (s : String) : String :=
  String.mk (stripCallbackTail (stripCallbackHead s.data))

/-- Outcome of one HTTP GET attempt: a raised requests exception, or a
response with status code and body bytes. -/
inductive HttpAttempt where
  | exc : HttpAttempt
  | resp : ℕ → List ℕ → HttpAttempt

/-- The network as a deterministic oracle: URL and 0-based attempt number to
the outcome of that GET attempt. -/
def Net : Type := String → ℕ → HttpAttempt

/-- Whether attempt number a on url succeeds: HTTP 200 with nonempty body
(scaso.py line 338). -/
def attemptOk (net : Net) (url : String) (a : ℕ) : Bool :=
  match net url a with
  | .exc => false
  | .resp st body => st == 200 && !(body.isEmpty)

/-- The retry loop of _http_get over the listed attempt numbers, returning
the first successful body together with how many GET attempts were issued. -/
def httpGetLoop (net : Net) (url : String) : List ℕ → Option (List ℕ) × ℕ
  | [] => (none, 0)
  | a :: rest =>
    match net url a with
    | .exc =>
      let p := httpGetLoop net url rest
      (p.1, p.2 + 1)
    | .resp st body =>
      if st = 200 ∧ body ≠ [] then (some body, 1)
      else
        let p := httpGetLoop net url rest
        (p.1, p.2 + 1)

/-- The function _http_get (scaso.py lines 307-347): up to retries+1 attempts; backoff and
throttle sleeps carry no information in the model. -/
def http_get (net : Net) (url : String) (retries : ℕ) : Option (List ℕ) × ℕ :=
  httpGetLoop net url (List.range (retries + 1))

/-- The on-disk state: path to file contents (bytes). -/
def FileSys : Type := String → Option (List ℕ)

/-- open(path, wb) followed by f.write(data). -/
def writeFile (fs : FileSys) (path : String) (data : List ℕ) : FileSys :=
  fun p => if p = path then some data else fs p

/-- out_file.exists() and out_file.stat().st_size > 0 (scaso.py line 384). -/
def existsNonempty (fs : FileSys) (path : String) : Bool :=
  match fs path with
  | some content => !(content.isEmpty)
  | none => false

/-- The immutable CLI options dataclass (scaso.py lines 52-76). -/
structure Options where
  url : String
  output_dir : Option String
  no_pdf : Bool
  pdf_engine : String
  formats : List String
  page_range : Option String
  retries : ℕ
  throttle_ms : ℕ
  headful : Bool

/-- The deterministic page asset URL (scaso.py line 381). -/
def pageUrl (base : String) (idx : ℤ) : String :=
  base ++ ("score_") ++ toString idx ++ (".svg")

/-- The deterministic page output path (scaso.py line 382), with Path join
modelled as slash concatenation. -/
def pageOutFile (out_dir song_stem : String) (idx : ℤ) : String :=
  out_dir ++ ("/") ++ song_stem ++ (" - page - ") ++ pad2 (idx + 1) ++ (".svg")

/-- Result of download_assets: saved page paths in order, optional auxiliary
paths, the final filesystem, and one log entry per GET attempt issued. -/
structure DownloadResult where
  svg_paths : List String
  mxl_path : Option String
  mid_path : Option String
  fs : FileSys
  requests : List String

/-- The SVG page loop of download_assets (scaso.py lines 380-401), threading
the filesystem and the request log. -/
def downloadPages (net : Net) (retries : ℕ) (base out_dir song_stem : String) :
    List ℤ → FileSys → List String → List String × FileSys × List String
  | [], fs, reqs => ([], fs, reqs)
  | idx :: rest, fs, reqs =>
    let out_file := pageOutFile out_dir song_stem idx
    if existsNonempty fs out_file then
      let p := downloadPages net retries base out_dir song_stem rest fs reqs
      (out_file :: p.1, p.2.1, p.2.2)
    else
      let url := pageUrl base idx
      let g := http_get net url retries
      let reqs2 := reqs ++ List.replicate g.2 url
      match g.1 with
      | some data =>
        let p := downloadPages net retries base out_dir song_stem rest
          (writeFile fs out_file data) reqs2
        (out_file :: p.1, p.2.1, p.2.2)
      | none => downloadPages net retries base out_dir song_stem rest fs reqs2

/-- On-disk skip or eventual HTTP success: whether the page loop records
index idx as retrieved, as a function of the filesystem it runs against. -/
def pageOk (net : Net) (retries : ℕ) (base out_dir song_stem : String)
    (fs : FileSys) (idx : ℤ) : Bool :=
  existsNonempty fs (pageOutFile out_dir song_stem idx) ||
  (http_get net (pageUrl base idx) retries).1.isSome

/-- One auxiliary asset block of download_assets (scaso.py lines 405-439): a
single bounded GET against a fixed URL, persisting the body on success; no
on-disk presence check is made. -/
def downloadAux (net : Net) (retries : ℕ) (url out : String) (fs : FileSys)
    (reqs : List String) : Option String × FileSys × List String :=
  let g := http_get net url retries
  let reqs2 := reqs ++ List.replicate g.2 url
  match g.1 with
  | some data => (some out, writeFile fs out data, reqs2)
  | none => (none, fs, reqs2)

/-- download_assets (scaso.py lines 350-441) over the filesystem/network
model. -/
def download_assets (options : Options) (base : String) (out_dir : String)
    (total_pages : ℤ) (page_indices : List ℤ) (song_stem : String)
    (net : Net) (fs0 : FileSys) : DownloadResult :=
  let want_svg := ("svg") ∈ options.formats
  let want_mxl := ("mxl") ∈ options.formats
  let want_mid := ("mid") ∈ options.formats ∨ ("midi") ∈ options.formats
  let p :=
    if want_svg ∧ 0 < total_pages then
      downloadPages net options.retries base out_dir song_stem page_indices fs0 []
    else ([], fs0, [])
  let m :=
    if want_mxl then
      downloadAux net options.retries (base ++ ("score.mxl"))
        (out_dir ++ ("/") ++ song_stem ++ (".mxl")) p.2.1 p.2.2
    else (none, p.2.1, p.2.2)
  let d :=
    if want_mid then
      downloadAux net options.retries (base ++ ("score.mid"))
        (out_dir ++ ("/") ++ song_stem ++ (".mid")) m.2.1 m.2.2
    else (none, m.2.1, m.2.2)
  ⟨p.1, m.1, d.1, d.2.1, d.2.2⟩

/-- The optional-dependency and conversion environment of
combine_svgs_to_pdf: whether cairosvg and pypdf import, and the composite
svg2pdf/PdfReader step on one file's bytes, none modelling any exception in
that per-file block. -/
structure PdfEnv where
  depsOk : Bool
  conv : List ℕ → Option (List ℕ)

/-- read_bytes plus SVG-to-PDF conversion for one page file: none when the
read or any conversion step raises. -/
def convertOne (env : PdfEnv) (fs : FileSys) (f : String) : Option (List ℕ) :=
  match fs f with
  | none => none
  | some bytes => env.conv bytes

/-- One iteration of the writer loop of combine_svgs_to_pdf (scaso.py lines
489-499): append the converted pages in order, or log and skip the file. -/
def combineStep (env : PdfEnv) (fsys : FileSys) (acc : List ℕ × List String)
    (f : String) : List ℕ × List String :=
  match convertOne env fsys f with
  | some pages => (acc.1 ++ pages, acc.2)
  | none => (acc.1, acc.2 ++ [("  [x] Failed to convert ") ++ f])

/-- combine_svgs_to_pdf (scaso.py lines 447-505): whether a PDF was written,
the written page sequence when one was, and the user-facing messages. -/
def combine_svgs_to_pdf (env : PdfEnv) (fsys : FileSys) (svg_paths : List String)
    (pdf_path : String) (engine : String) : Bool × Option (List ℕ) × List String :=
  if svg_paths = [] then (false, none, [("[i] No SVGs to combine")])
  else if engine = ("none") then
    (false, none, [("[i] PDF combine disabled (engine=none)")])
  else if engine ≠ ("cairosvg") then
    (false, none, [("[x] Unknown pdf engine: ") ++ engine])
  else if !env.depsOk then
    (false, none, [("[x] PDF combine requires cairosvg and pypdf.")])
  else
    let r := svg_paths.foldl (combineStep env fsys) ([], [])
    (true, some r.1, r.2 ++ [("PDF saved: ") ++ pdf_path])

/-- Outcome of the single manifest GET issued by fetch_space: a raised
requests exception, or status code and response text. -/
inductive TextResp where
  | exc : TextResp
  | resp : ℕ → String → TextResp

/-- The ambient effects run needs: the Agent outcome (error models a
navigation RuntimeError), the manifest GET, the external JSON parser, the
asset network oracle, the starting filesystem and the PDF conversion
environment. -/
structure RunEnv where
  agent : Except String (Option String × String)
  manifestGet : String → TextResp
  jsonParse : String → Option JValue
  net : Net
  fs0 : FileSys
  pdf : PdfEnv

/-- fetch_space (scaso.py lines 233-271): one GET, require HTTP 200, unwrap
the JSONP callback, parse the remainder as JSON; every failure becomes a
RuntimeError result. -/
def fetch_space (env : RunEnv) (space_url : String) : Except String JValue :=
  match env.manifestGet space_url with
  | .exc => .error ("Failed to GET space.jsonp")
  | .resp status text =>
    if status ≠ 200 then .error ("space.jsonp HTTP error")
    else
      match env.jsonParse (unwrapJsonp text) with
      | some data => .ok data
      | none => .error ("Could not parse space.jsonp JSON.")

/-- Word characters of the regex word class (ASCII fragment). -/
def isWordChar (c : Char) : Bool := c.isAlphanum || c = '_'

/-- Characters untouched by the first substitution of sanitize_filename. -/
def isKeptChar (c : Char) : Bool := isWordChar c || c = '-' || c = '.' || c = ' '

/-- re.sub collapsing every run of banned characters to one underscore; the
flag records being inside a run. -/
def subBadAux : Bool → List Char → List Char
  | _, [] => []
  | inRun, c :: rest =>
    if isKeptChar c then c :: subBadAux false rest
    else if inRun then subBadAux true rest
    else '_' :: subBadAux true rest

/-- re.sub collapsing every whitespace run to one space. -/
def subSpaceAux : Bool → List Char → List Char
  | _, [] => []
  | inRun, c :: rest =>
    if isPySpace c then
      if inRun then subSpaceAux true rest else ' ' :: subSpaceAux true rest
    else c :: subSpaceAux false rest

/-- sanitize_filename (scaso.py lines 111-124). -/
def sanitize_filename (name : String) (max_len : ℕ) : String :=
  let cleaned1 := subBadAux false (pyStripChars name.data)
  let cleaned2 := subSpaceAux false cleaned1
  if cleaned2 = [] then ("score") else String.mk (cleaned2.take max_len)

/-- options.url.rstrip of slashes, split on slash, last field
(scaso.py line 552). -/
def scoreId (url : String) : String :=
  let stripped := (url.data.reverse.dropWhile (fun c => c = '/')).reverse
  String.mk ((splitChar '/' stripped).getLastD [])

/-- run (scaso.py lines 511-592): the orchestrator, returning the process
exit code; mkdir always succeeds in the model and printing carries no
information. -/
def run (env : RunEnv) (options : Options) : ℤ :=
  match env.agent with
  | .error _ => 1
  | .ok (ospace, title) =>
    match ospace with
    | none => 1
    | some space_url =>
      match fetch_space env space_url with
      | .error _ => 1
      | .ok space_data =>
      match derive_base_and_pages space_url space_data with
      | .error _ => 1
      | .ok (base, total_pages) =>
        let score_id := scoreId options.url
        let base_name := sanitize_filename (title ++ (" - ") ++ score_id) 128
        let _song_stem := sanitize_filename title 128
        let out_dir :=
          match options.output_dir with
          | some d => d
          | none => ("../scores/musescore_") ++ base_name
        let page_indices := parse_page_range options.page_range total_pages
        let page_indices :=
          if page_indices ≠ [] ∧ total_pages ≤ pyMax page_indices then
            page_indices.filter (fun i => decide (i < total_pages))
          else page_indices
        let result := download_assets options base out_dir total_pages
          page_indices base_name env.net env.fs0
        let _pdf :=
          if options.no_pdf = false ∧ ("svg") ∈ options.formats then
            combine_svgs_to_pdf env.pdf result.fs result.svg_paths
              (out_dir ++ ("/") ++ base_name ++ (".pdf")) options.pdf_engine
          else (false, none, [("[i] PDF combine skipped")])
        0

/-- A network on which every GET attempt raises. -/
def netDown : Net := fun _ _ => HttpAttempt.exc

/-- A filesystem holding exactly one nonempty page file for index 0 of the
concrete counterexample run. -/
def fsPageZero : FileSys :=
  fun p => if p = pageOutFile ("out") ("s") 0 then some [1] else none

/-- Concrete options requesting svg and mxl with zero retries. -/
def optsSvgMxl : Options :=
  ⟨("u"), none, true, ("none"), [("svg"), ("mxl")], none, 0, 0, false⟩

/-- Concrete options requesting only svg, with zero retries. -/
def optsSvgOnly : Options :=
  ⟨("u"), none, true, ("none"), [("svg")], none, 0, 0, false⟩

/-- A network on which only the page-1 asset URL responds, successfully on
every attempt; every other URL raises. -/
def net1 : Net := fun u _ =>
  if u = ("b/score_1.svg") then HttpAttempt.resp 200 [7] else HttpAttempt.exc

/-- An environment in which Agent, Manifest Fetcher and Asset Locator all
succeed. -/
def envAllOk : RunEnv :=
  ⟨.ok (some ("https://x/y/space.jsonp"), ("T")),
    fun _ => TextResp.resp 200 ("cb(0)"),
    fun _ => some (JValue.obj []),
    netDown, fun _ => none, ⟨false, fun _ => none⟩⟩

theorem mem_insertSorted {x a : ℤ} {l : List ℤ} :
    a ∈ insertSorted x l ↔ a = x ∨ a ∈ l := by
  induction l with
  | nil => simp [insertSorted]
  | cons y ys ih =>
    rw [insertSorted]
    by_cases h1 : x < y
    · rw [if_pos h1]
      simp only [List.mem_cons]
    · rw [if_neg h1]
      by_cases h2 : x = y
      · rw [if_pos h2]
        simp only [List.mem_cons]
        constructor
        · intro h
          tauto
        · rintro (rfl | h)
          · left
            exact h2
          · exact h
      · rw [if_neg h2]
        simp only [List.mem_cons, ih]
        tauto

theorem pairwise_insertSorted {x : ℤ} {l : List ℤ}
    (h : l.Pairwise (· < ·)) : (insertSorted x l).Pairwise (· < ·) := by
  induction l with
  | nil => simp [insertSorted]
  | cons y ys ih =>
    rcases List.pairwise_cons.mp h with ⟨hy, hys⟩
    by_cases h1 : x < y
    · simp only [insertSorted, if_pos h1]
      refine List.pairwise_cons.mpr ⟨?_, h⟩
      intro z hz
      rcases List.mem_cons.mp hz with rfl | hz'
      · exact h1
      · exact h1.trans (hy z hz')
    · by_cases h2 : x = y
      · simp only [insertSorted, if_neg h1, if_pos h2]
        exact h
      · simp only [insertSorted, if_neg h1, if_neg h2]
        refine List.pairwise_cons.mpr ⟨?_, ih hys⟩
        intro z hz
        rcases mem_insertSorted.mp hz with rfl | hz'
        · omega
        · exact hy z hz'

theorem mem_insertRangeAux {a : ℤ} : ∀ (n : ℕ) (i : ℤ) (acc : List ℤ),
    a ∈ insertRangeAux n i acc ↔ a ∈ acc ∨ (i ≤ a ∧ a < i + n)
  | 0, i, acc => by simp [insertRangeAux]
  | n + 1, i, acc => by
    rw [insertRangeAux, mem_insertRangeAux n (i + 1) (insertSorted i acc),
      mem_insertSorted]
    constructor
    · rintro ((rfl | h) | ⟨h1, h2⟩)
      · right
        constructor <;> omega
      · left
        exact h
      · right
        constructor <;> omega
    · rintro (h | ⟨h1, h2⟩)
      · left
        right
        exact h
      · by_cases ha : a = i
        · left
          left
          exact ha
        · right
          constructor <;> omega

theorem pairwise_insertRangeAux : ∀ (n : ℕ) (i : ℤ) (acc : List ℤ),
    acc.Pairwise (· < ·) → (insertRangeAux n i acc).Pairwise (· < ·)
  | 0, _, _, h => h
  | n + 1, i, acc, h =>
    pairwise_insertRangeAux n (i + 1) _ (pairwise_insertSorted h)

theorem mem_processToken {total : ℤ} {acc : List ℤ} {part : List Char} {a : ℤ}
    (h : a ∈ processToken total acc part) : a ∈ acc ∨ (0 ≤ a ∧ a < total) := by
  simp only [processToken] at h
  split at h
  · split at h
    · split at h
      · rw [mem_insertRangeAux] at h
        rcases h with h | ⟨h1, h2⟩
        · exact .inl h
        · right
          constructor <;> omega
      · exact .inl h
    · exact .inl h
  · split at h
    · split at h
      · rw [mem_insertSorted] at h
        rcases h with rfl | h
        · right
          constructor <;> omega
        · exact .inl h
      · exact .inl h
    · exact .inl h

theorem pairwise_processToken {total : ℤ} {acc : List ℤ} {part : List Char}
    (h : acc.Pairwise (· < ·)) :
    (processToken total acc part).Pairwise (· < ·) := by
  simp only [processToken]
  split
  · split
    · split
      · exact pairwise_insertRangeAux _ _ _ h
      · exact h
    · exact h
  · split
    · split
      · exact pairwise_insertSorted h
      · exact h
    · exact h

theorem mem_foldl_processToken {total : ℤ} :
    ∀ (parts : List (List Char)) (acc : List ℤ) (a : ℤ),
      a ∈ parts.foldl (processToken total) acc → a ∈ acc ∨ (0 ≤ a ∧ a < total)
  | [], _, _, h => .inl h
  | p :: ps, acc, a, h => by
    rcases mem_foldl_processToken ps (processToken total acc p) a h with h' | hb
    · exact mem_processToken h'
    · exact .inr hb

theorem pairwise_foldl_processToken {total : ℤ} :
    ∀ (parts : List (List Char)) (acc : List ℤ),
      acc.Pairwise (· < ·) →
      (parts.foldl (processToken total) acc).Pairwise (· < ·)
  | [], _, h => h
  | p :: ps, acc, h =>
    pairwise_foldl_processToken ps _ (pairwise_processToken h)

theorem pairwise_fullRange (t : ℤ) : (fullRange t).Pairwise (· < ·) := by
  rw [fullRange, List.pairwise_map]
  refine List.Pairwise.imp ?_ (List.pairwise_lt_range _)
  intro a b h
  exact_mod_cast h

theorem mem_fullRange {a t : ℤ} : a ∈ fullRange t ↔ 0 ≤ a ∧ a < t := by
  constructor
  · intro h
    rw [fullRange] at h
    rcases List.mem_map.mp h with ⟨n, hn, rfl⟩
    rw [List.mem_range] at hn
    omega
  · intro h
    rw [fullRange]
    refine List.mem_map.mpr ⟨a.toNat, ?_, by omega⟩
    rw [List.mem_range]
    omega

theorem mem_resolveTokens {s : String} {total a : ℤ}
    (h : a ∈ resolveTokens s total) : 0 ≤ a ∧ a < total := by
  rcases mem_foldl_processToken _ _ _ h with h' | hb
  · exact absurd h' (List.not_mem_nil a)
  · exact hb

theorem pairwise_resolveTokens {s : String} {total : ℤ} :
    (resolveTokens s total).Pairwise (· < ·) :=
  pairwise_foldl_processToken _ _ List.Pairwise.nil

/-- Claim C3: for every range spec string and every total page count, the
sequence returned by parse_page_range is strictly increasing (hence
duplicate-free) and every element lies in [0, T-1]; malformed and
out-of-range tokens are dropped without error, and in particular the spec
string 1-2,5 with four total pages resolves to exactly [0, 1], with token 5
dropped and the nonempty result returned as-is. -/
theorem parse_page_range_sorted_bounded (spec : Option String) (t : ℤ) :
    (parse_page_range spec t).Pairwise (· < ·) ∧
    (∀ a ∈ parse_page_range spec t, 0 ≤ a ∧ a < t) ∧
    parse_page_range (some ("1-2,5")) 4 = [0, 1] := by
  refine ⟨?_, ?_, by decide⟩
  · cases spec with
    | none => exact pairwise_fullRange t
    | some s =>
      simp only [parse_page_range]
      split
      · exact pairwise_fullRange t
      · split
        · exact pairwise_resolveTokens
        · exact pairwise_fullRange t
  · intro a ha
    cases spec with
    | none => exact mem_fullRange.mp ha
    | some s =>
      simp only [parse_page_range] at ha
      split at ha
      · exact mem_fullRange.mp ha
      · split at ha
        · exact mem_resolveTokens ha
        · exact mem_fullRange.mp ha

/-- Claim C4: for every total page count T, parse_page_range returns exactly
the indices 0..T-1 when the range spec is absent (none) or the empty string,
and also whenever the index set resolved from the tokens is empty; the full
range is the fallback in exactly these cases. -/
theorem parse_page_range_full_fallback (T : ℕ) :
    parse_page_range none ((T : ℤ)) =
      (List.range T).map (fun (n : ℕ) => ((n : ℤ))) ∧
    parse_page_range (some ("")) ((T : ℤ)) =
      (List.range T).map (fun (n : ℕ) => ((n : ℤ))) ∧
    (∀ s : String, resolveTokens s ((T : ℤ)) = [] →
      parse_page_range (some s) ((T : ℤ)) =
        (List.range T).map (fun (n : ℕ) => ((n : ℤ)))) := by
  refine ⟨?_, ?_, ?_⟩
  · simp [parse_page_range, fullRange, Int.toNat_natCast]
  · simp [parse_page_range, fullRange, Int.toNat_natCast]
  · intro s hs
    simp only [parse_page_range]
    split
    · simp [fullRange, Int.toNat_natCast]
    · rw [hs]
      simp [fullRange, Int.toNat_natCast]

theorem parse_page_range_full_fallback_witness :
    resolveTokens ("x") ((3 : ℕ) : ℤ) = [] ∧
    parse_page_range (some ("x")) ((3 : ℕ) : ℤ) = [0, 1, 2] := by
  constructor
  · decide
  · exact ((parse_page_range_full_fallback 3).2.2 ("x") (by decide)).trans
      (by decide)

theorem dropWhile_append_of_forall {p : Char → Bool} :
    ∀ {l r : List Char}, (∀ c ∈ l, p c = true) →
      (l ++ r).dropWhile p = r.dropWhile p
  | [], _, _ => rfl
  | c :: cs, r, h => by
    rw [List.cons_append, List.dropWhile_cons,
      if_pos (h c (List.mem_cons_self c cs))]
    exact dropWhile_append_of_forall (fun d hd => h d (List.mem_cons_of_mem c hd))

theorem beforeLastSlash_append (a b : String) (hb : ∀ c ∈ b.data, c ≠ '/') :
    beforeLastSlash ((a ++ ("/") ++ b).data) = a.data := by
  have hdata : (a ++ ("/") ++ b).data = (a.data ++ ['/']) ++ b.data := by
    rw [String.data_append, String.data_append]
  rw [beforeLastSlash, hdata]
  rw [if_pos (List.elem_eq_true_of_mem (by simp))]
  have hrev : ((a.data ++ ['/']) ++ b.data).reverse =
      b.data.reverse ++ '/' :: a.data.reverse := by
    simp
  rw [hrev, dropWhile_append_of_forall
    (fun c hc => by
      simp only [List.mem_reverse] at hc
      simpa using hb c hc)]
  simp [List.dropWhile_cons]

/-- Claim C8: the base asset URL is the manifest URL truncated at its final
path separator plus a trailing separator, and the page asset URL for index i
is the base followed by score underscore i dot svg; for the concrete
manifest URL the base and the index-2 page URL are as stated. -/
theorem base_and_page_url (a b : String) (hb : ∀ c ∈ b.data, c ≠ '/') :
    deriveBase (a ++ ("/") ++ b) = a ++ ("/") ∧
    deriveBase (("https://x/y/space.jsonp")) = ("https://x/y/") ∧
    pageUrl (("https://x/y/")) 2 = ("https://x/y/score_2.svg") := by
  refine ⟨?_, by decide, by decide⟩
  rw [deriveBase, beforeLastSlash_append a b hb]

theorem base_and_page_url_witness :
    deriveBase (("https://x/y") ++ ("/") ++ ("space.jsonp")) =
      ("https://x/y") ++ ("/") :=
  (base_and_page_url ("https://x/y") ("space.jsonp") (by decide)).1

theorem dropThroughParen_append {l r : List Char} (h : ∀ c ∈ l, c ≠ '(') :
    stripCallbackHead.dropThroughParen (l ++ '(' :: r) = r := by
  induction l with
  | nil =>
    rw [List.nil_append, stripCallbackHead.dropThroughParen, if_pos rfl]
  | cons c cs ih =>
    rw [List.cons_append, stripCallbackHead.dropThroughParen,
      if_neg (h c (List.mem_cons_self c cs))]
    exact ih (fun d hd => h d (List.mem_cons_of_mem c hd))

theorem stripCallbackHead_append {l r : List Char} (hl : l ≠ [])
    (h : ∀ c ∈ l, c ≠ '(') : stripCallbackHead (l ++ '(' :: r) = r := by
  cases l with
  | nil => exact absurd rfl hl
  | cons c cs =>
    rw [List.cons_append, stripCallbackHead,
      if_neg (h c (List.mem_cons_self c cs)),
      if_pos (List.elem_eq_true_of_mem (by simp))]
    rw [← List.cons_append]
    exact dropThroughParen_append h

theorem stripCallbackTail_closeParen (w : List Char) :
    stripCallbackTail (w ++ [')']) = w := by
  have h : (w ++ [')']).reverse = ')' :: w.reverse := by simp
  rw [stripCallbackTail, h]
  rcases hw : w.reverse with _ | ⟨c, rest⟩
  · simp only [List.reverse_eq_nil_iff] at hw
    simp [hw]
  · rw [← List.reverse_reverse w, hw]
    simp

theorem stripCallbackTail_closeParenSemi (w : List Char) :
    stripCallbackTail (w ++ [')', ';']) = w := by
  have h : (w ++ [')', ';']).reverse = ';' :: ')' :: w.reverse := by simp
  rw [stripCallbackTail, h]
  simp

/-- Claim C6: the manifest unwrap step strips everything up to and including
the first opening parenthesis and a trailing close-paren or close-paren
semicolon, so for every payload identifier(json) or identifier(json); the
text handed to the JSON parser is exactly json. -/
theorem unwrap_exact (ident json : String) (h1 : ident.data ≠ [])
    (h2 : ∀ c ∈ ident.data, c ≠ '(') :
    unwrapJsonp (ident ++ ("(") ++ json ++ (")")) = json ∧
    unwrapJsonp (ident ++ ("(") ++ json ++ (");")) = json := by
  constructor
  · have hdata : (ident ++ ("(") ++ json ++ (")")).data =
        ident.data ++ '(' :: (json.data ++ [')']) := by
      simp [String.data_append]
    rw [unwrapJsonp, hdata, stripCallbackHead_append h1 h2,
      stripCallbackTail_closeParen]
  · have hdata : (ident ++ ("(") ++ json ++ (");")).data =
        ident.data ++ '(' :: (json.data ++ [')', ';']) := by
      simp [String.data_append]
    rw [unwrapJsonp, hdata, stripCallbackHead_append h1 h2,
      stripCallbackTail_closeParenSemi]

theorem unwrap_exact_witness :
    unwrapJsonp (("cb") ++ ("(") ++ ("[1, 2]") ++ (");")) = ("[1, 2]") :=
  (unwrap_exact ("cb") ("[1, 2]") (by decide) (by decide)).2

theorem extractPages_mkSpace : ∀ ns : List ℤ,
    extractPages (ns.map (fun n => JValue.obj [(("page"), JValue.int n)])) =
      .ok ns
  | [] => rfl
  | n :: ns => by
    have h : extractPages
        ((n :: ns).map (fun m => JValue.obj [(("page"), JValue.int m)])) =
        match extractPages
          (ns.map (fun m => JValue.obj [(("page"), JValue.int m)])) with
        | .error e => .error e
        | .ok ms => .ok (n :: ms) := rfl
    rw [h, extractPages_mkSpace ns]

/-- Claim C5 (amended): derive_base_and_pages computes total pages as the
maximum page index plus one, and 0 when the array under the space key is
empty or the key is absent; gaps do not affect the count, so the
three-descriptor gap manifest yields total pages 4.  A non-iterable value
under the key, or a page value int() cannot convert, raises an extraction
error, but a numeric-string page index is converted rather than rejected. -/
theorem derive_total_pages (u : String) (ns : List ℤ)
    (kvs : List (String × JValue)) (habs : lookupLast kvs ("space") = none) :
    derive_base_and_pages u (JValue.obj kvs) = .ok (deriveBase u, 0) ∧
    derive_base_and_pages u (mkSpace ns) =
      .ok (deriveBase u, if ns = [] then 0 else pyMax ns + 1) ∧
    derive_base_and_pages ("https://x/y/space.jsonp") (mkSpace [0, 1, 3]) =
      .ok (("https://x/y/"), 4) ∧
    (∃ e, derive_base_and_pages u
      (JValue.obj [(("space"), JValue.null)]) = .error e) ∧
    (∃ e, derive_base_and_pages u
      (JValue.obj [(("space"), JValue.arr [JValue.null])]) = .error e) ∧
    derive_base_and_pages u (JValue.obj [(("space"),
      JValue.arr [JValue.obj [(("page"), JValue.str ("3"))]])]) =
      .ok (deriveBase u, 4) := by
  refine ⟨?_, ?_, by rfl, ⟨("TypeError: not iterable"), rfl⟩,
    ⟨("TypeError: not subscriptable"), rfl⟩, by rfl⟩
  · rw [derive_base_and_pages, dictGet, habs]
    rfl
  · rcases ns with _ | ⟨m, ms⟩
    · rfl
    · have h : derive_base_and_pages u (mkSpace (m :: ms)) =
          match extractPages
            ((m :: ms).map (fun n => JValue.obj [(("page"), JValue.int n)])) with
          | .error e => .error e
          | .ok pages => .ok (deriveBase u,
              match pages with
              | [] => 0
              | _ => pyMax pages + 1) := rfl
      rw [h, extractPages_mkSpace (m :: ms)]
      simp [pyMax]

theorem derive_total_pages_witness :
    lookupLast [] ("space") = none ∧
    derive_base_and_pages ("https://x/y/space.jsonp") (JValue.obj []) =
      .ok (("https://x/y/"), 0) ∧
    derive_base_and_pages ("https://x/y/space.jsonp") (mkSpace [0, 1, 3]) =
      .ok (("https://x/y/"), 4) :=
  ⟨rfl, (derive_total_pages ("https://x/y/space.jsonp") [] [] rfl).1,
    (derive_total_pages ("https://x/y/space.jsonp") [] [] rfl).2.2.1⟩

/-- C5 counterexample: a manifest carrying the non-integer page index
string 3 does not raise an extraction error; derive_base_and_pages converts
it and reports four total pages, and a manifest without the space key
reports zero pages instead of raising. -/
theorem derive_nonint_counterexample :
    derive_base_and_pages ("u") (JValue.obj [(("space"),
      JValue.arr [JValue.obj [(("page"), JValue.str ("3"))]])]) =
      .ok (("u/"), 4) ∧
    derive_base_and_pages ("u") (JValue.obj []) = .ok (("u/"), 0) := by
  exact ⟨rfl, rfl⟩

/-- Claim C9: combine_svgs_to_pdf returns false without raising when the
page list is empty, when the engine is the explicit string none, and when
the engine is unrecognized (emitting an unknown-engine diagnostic naming
the engine); in none of these cases is any output document written. -/
theorem combine_early_return (env : PdfEnv) (fsys : FileSys)
    (svg_paths : List String) (pdf_path : String) (engine : String) :
    (combine_svgs_to_pdf env fsys [] pdf_path engine =
      (false, none, [("[i] No SVGs to combine")])) ∧
    (svg_paths ≠ [] →
      combine_svgs_to_pdf env fsys svg_paths pdf_path ("none") =
      (false, none, [("[i] PDF combine disabled (engine=none)")])) ∧
    (svg_paths ≠ [] → engine ≠ ("none") → engine ≠ ("cairosvg") →
      combine_svgs_to_pdf env fsys svg_paths pdf_path engine =
      (false, none, [("[x] Unknown pdf engine: ") ++ engine])) := by
  refine ⟨rfl, ?_, ?_⟩
  · intro h
    rw [combine_svgs_to_pdf, if_neg h, if_pos rfl]
  · intro h h1 h2
    rw [combine_svgs_to_pdf, if_neg h, if_neg h1, if_pos h2]

theorem combine_early_return_witness :
    combine_svgs_to_pdf ⟨false, fun _ => none⟩ (fun _ => none) [("a.svg")]
      ("out.pdf") ("imagemagick") =
      (false, none, [("[x] Unknown pdf engine: ") ++ ("imagemagick")]) :=
  (combine_early_return ⟨false, fun _ => none⟩ (fun _ => none) [("a.svg")]
    ("out.pdf") ("imagemagick")).2.2 (by decide) (by decide) (by decide)

theorem combineFold_failed (env : PdfEnv) (fsys : FileSys) :
    ∀ (paths : List String) (acc : List ℕ × List String),
      (∀ f ∈ paths, convertOne env fsys f = none) →
      (paths.foldl (combineStep env fsys) acc).1 = acc.1
  | [], _, _ => rfl
  | f :: rest, acc, h => by
    rw [List.foldl_cons]
    have hst : combineStep env fsys acc f =
        (acc.1, acc.2 ++ [("  [x] Failed to convert ") ++ f]) := by
      rw [combineStep, h f (List.mem_cons_self f rest)]
    rw [hst,
      combineFold_failed env fsys rest _
        (fun d hd => h d (List.mem_cons_of_mem f hd))]

/-- Claim C10: with a nonempty page list, the cairosvg engine and importable
optional dependencies, combine_svgs_to_pdf always writes an output document
and returns true, even when conversion fails for every input page: each
failing page is skipped and the written document then has zero pages. -/
theorem combine_always_writes (env : PdfEnv) (fsys : FileSys)
    (svg_paths : List String) (pdf_path : String)
    (hne : svg_paths ≠ []) (hdeps : env.depsOk = true) :
    (combine_svgs_to_pdf env fsys svg_paths pdf_path ("cairosvg")).1 = true ∧
    (∃ doc, (combine_svgs_to_pdf env fsys svg_paths pdf_path
        ("cairosvg")).2.1 = some doc ∧
      ((∀ f ∈ svg_paths, convertOne env fsys f = none) → doc = [])) := by
  rw [combine_svgs_to_pdf, if_neg hne,
    if_neg (show ¬(("cairosvg") = ("none") : Prop) by decide),
    if_neg (show ¬(("cairosvg") ≠ ("cairosvg") : Prop) by decide), hdeps,
    if_neg (show ¬((!true) = true) by decide)]
  refine ⟨rfl, ⟨(svg_paths.foldl (combineStep env fsys) ([], [])).1, rfl, ?_⟩⟩
  intro hall
  exact combineFold_failed env fsys svg_paths ([], []) hall

theorem combine_always_writes_witness :
    (combine_svgs_to_pdf ⟨true, fun _ => none⟩ (fun _ => none) [("a.svg")]
      ("out.pdf") ("cairosvg")).1 = true ∧
    (combine_svgs_to_pdf ⟨true, fun _ => none⟩ (fun _ => none) [("a.svg")]
      ("out.pdf") ("cairosvg")).2.1 = some [] := by
  have h := combine_always_writes ⟨true, fun _ => none⟩ (fun _ => none)
    [("a.svg")] ("out.pdf") (by decide) rfl
  rcases h.2 with ⟨doc, hd, hall⟩
  refine ⟨h.1, ?_⟩
  rw [hd, hall (fun f hf => rfl)]

theorem httpGetLoop_attempts_le (net : Net) (url : String) :
    ∀ l : List ℕ, (httpGetLoop net url l).2 ≤ l.length := by
  intro l
  induction l with
  | nil => exact Nat.le_refl 0
  | cons a rest ih =>
    rw [httpGetLoop]
    split
    · simpa using Nat.succ_le_succ ih
    · split
      · simpa using Nat.succ_le_succ (Nat.zero_le rest.length)
      · simpa using Nat.succ_le_succ ih

theorem httpGetLoop_isSome (net : Net) (url : String) :
    ∀ l : List ℕ, (httpGetLoop net url l).1.isSome = true ↔
      ∃ a ∈ l, attemptOk net url a = true := by
  intro l
  induction l with
  | nil => simp [httpGetLoop]
  | cons a rest ih =>
    rw [httpGetLoop]
    rcases heq : net url a with _ | ⟨st, body⟩
    · have hok : attemptOk net url a = false := by rw [attemptOk, heq]
      simp [ih, hok]
    · by_cases hcond : st = 200 ∧ body ≠ []
      · have hok : attemptOk net url a = true := by
          rw [attemptOk, heq]
          rcases hcond with ⟨h200, hbody⟩
          subst h200
          simp [List.isEmpty_iff, hbody]
        dsimp only
        rw [if_pos hcond]
        simp [hok]
      · have hok : attemptOk net url a = false := by
          rw [attemptOk, heq]
          rcases Decidable.not_and_iff_or_not.mp hcond with h | h
          · simp [h]
          · have : body = [] := Decidable.not_not.mp h
            simp [this]
        dsimp only
        rw [if_neg hcond]
        simp [ih, hok]

theorem httpGetLoop_all_fail (net : Net) (url : String) :
    ∀ l : List ℕ, (∀ a ∈ l, attemptOk net url a = false) →
      httpGetLoop net url l = (none, l.length) := by
  intro l
  induction l with
  | nil => intro _; rfl
  | cons a rest ih =>
    intro h
    have hfalse := h a (List.mem_cons_self a rest)
    rw [httpGetLoop]
    rcases heq : net url a with _ | ⟨st, body⟩
    · rw [ih (fun b hb => h b (List.mem_cons_of_mem a hb))]
      simp
    · have hcond : ¬(st = 200 ∧ body ≠ []) := by
        intro ⟨h200, hbody⟩
        rw [attemptOk, heq, h200] at hfalse
        simp [List.isEmpty_iff, hbody] at hfalse
      dsimp only
      rw [if_neg hcond, ih (fun b hb => h b (List.mem_cons_of_mem a hb))]
      simp

theorem existsNonempty_writeFile_ne (fs : FileSys) (path p : String)
    (data : List ℕ) (h : p ≠ path) :
    existsNonempty (writeFile fs path data) p = existsNonempty fs p := by
  rw [existsNonempty, writeFile, if_neg h, existsNonempty]

theorem downloadPages_filter (net : Net) (retries : ℕ)
    (base out_dir song_stem : String) :
    ∀ (idxs : List ℤ) (fs : FileSys) (reqs : List String),
      idxs.Pairwise (fun i j =>
        pageOutFile out_dir song_stem i ≠ pageOutFile out_dir song_stem j) →
      (downloadPages net retries base out_dir song_stem idxs fs reqs).1 =
        (idxs.filter (pageOk net retries base out_dir song_stem fs)).map
          (pageOutFile out_dir song_stem) := by
  intro idxs
  induction idxs with
  | nil => intro fs reqs _; rfl
  | cons idx rest ih =>
    intro fs reqs hdist
    rcases List.pairwise_cons.mp hdist with ⟨hhead, htail⟩
    rw [downloadPages]
    by_cases hex : existsNonempty fs (pageOutFile out_dir song_stem idx) = true
    · rw [if_pos hex]
      have hpage : pageOk net retries base out_dir song_stem fs idx = true := by
        rw [pageOk, hex, Bool.true_or]
      rw [List.filter_cons_of_pos hpage, List.map_cons]
      exact congrArg _ (ih fs reqs htail)
    · rw [if_neg hex]
      dsimp only
      rcases hg : (http_get net (pageUrl base idx) retries).1 with _ | data
      · dsimp only
        have hpage : pageOk net retries base out_dir song_stem fs idx = false := by
          rw [pageOk, Bool.eq_false_iff.mpr hex, hg]
          rfl
        rw [List.filter_cons_of_neg (by rw [hpage]; exact Bool.false_ne_true)]
        exact ih fs _ htail
      · dsimp only
        have hpage : pageOk net retries base out_dir song_stem fs idx = true := by
          rw [pageOk, hg]
          simp
        rw [List.filter_cons_of_pos hpage, List.map_cons]
        refine congrArg _ ?_
        rw [ih _ _ htail]
        refine congrArg _ (List.filter_congr ?_)
        intro j hj
        rw [pageOk, pageOk, existsNonempty_writeFile_ne fs _ _ data
          (Ne.symm (hhead j hj))]

/-- Claim C7: _http_get performs at most retries+1 GET attempts; it returns
a body exactly when some attempt within the budget yields HTTP 200 with a
nonempty body, and returns the failure marker after exactly retries+1
attempts when all fail; in download_assets a page whose attempts are all
exhausted is recorded as failed while every other page is still decided
only by its own disk state and its own URL, and the auxiliary MusicXML
fetch is decided only by its own URL, so no single asset failure blocks any
later page or auxiliary asset. -/
theorem http_get_retry_and_continue (net : Net) (url : String) (retries : ℕ)
    (options : Options) (base out_dir song_stem : String) (total_pages : ℤ)
    (idxs : List ℤ) (fs0 : FileSys)
    (hdist : idxs.Pairwise (fun i j =>
      pageOutFile out_dir song_stem i ≠ pageOutFile out_dir song_stem j)) :
    (http_get net url retries).2 ≤ retries + 1 ∧
    ((http_get net url retries).1.isSome = true ↔
      ∃ a < retries + 1, attemptOk net url a = true) ∧
    ((∀ a < retries + 1, attemptOk net url a = false) →
      http_get net url retries = (none, retries + 1)) ∧
    (("svg") ∈ options.formats → 0 < total_pages →
      (download_assets options base out_dir total_pages idxs song_stem net
          fs0).svg_paths =
        (idxs.filter (pageOk net options.retries base out_dir song_stem
          fs0)).map (pageOutFile out_dir song_stem)) ∧
    ((download_assets options base out_dir total_pages idxs song_stem net
        fs0).mxl_path =
      if ("mxl") ∈ options.formats ∧
          (http_get net (base ++ ("score.mxl")) options.retries).1.isSome = true
      then some (out_dir ++ ("/") ++ song_stem ++ (".mxl"))
      else none) := by
  refine ⟨?_, ?_, ?_, ?_, ?_⟩
  · simpa using httpGetLoop_attempts_le net url (List.range (retries + 1))
  · rw [http_get, httpGetLoop_isSome net url (List.range (retries + 1))]
    simp [List.mem_range]
  · intro h
    rw [http_get, httpGetLoop_all_fail net url (List.range (retries + 1))
      (fun a ha => h a (List.mem_range.mp ha))]
    simp
  · intro hsvg htot
    simp only [download_assets]
    rw [if_pos ⟨hsvg, htot⟩]
    exact downloadPages_filter net options.retries base out_dir song_stem
      idxs fs0 [] hdist
  · simp only [download_assets]
    by_cases hmxl : ("mxl") ∈ options.formats
    · rw [if_pos hmxl]
      simp only [downloadAux]
      rcases hg : (http_get net (base ++ ("score.mxl")) options.retries).1
        with _ | data
      · dsimp only
        rw [if_neg (by rintro ⟨h1, h2⟩; simp at h2)]
      · dsimp only
        rw [if_pos ⟨hmxl, rfl⟩]
    · rw [if_neg hmxl,
        if_neg (show ¬(("mxl") ∈ options.formats ∧
          (http_get net (base ++ ("score.mxl")) options.retries).1.isSome = true)
          from fun h => hmxl h.1)]

theorem http_get_retry_and_continue_witness :
    (([0, 1] : List ℤ).Pairwise (fun i j =>
      pageOutFile ("out") ("s") i ≠ pageOutFile ("out") ("s") j)) ∧
    (download_assets optsSvgMxl ("b/") ("out") 2 [0, 1] ("s") net1
      (fun _ => none)).svg_paths = [("out/s - page - 02.svg")] ∧
    (download_assets optsSvgMxl ("b/") ("out") 2 [0, 1] ("s") net1
      (fun _ => none)).mxl_path = none := by
  have hdist : (([0, 1] : List ℤ).Pairwise (fun i j =>
      pageOutFile ("out") ("s") i ≠ pageOutFile ("out") ("s") j)) := by decide
  have h := http_get_retry_and_continue net1 ("b/score_0.svg") 0 optsSvgMxl
    ("b/") ("out") ("s") 2 [0, 1] (fun _ => none) hdist
  refine ⟨hdist, ?_, ?_⟩
  · exact (h.2.2.2.1 (by decide) (by decide)).trans (by rfl)
  · exact h.2.2.2.2.trans (by rfl)

theorem downloadPages_all_skip (net : Net) (retries : ℕ)
    (base out_dir song_stem : String) :
    ∀ (idxs : List ℤ) (fs : FileSys) (reqs : List String),
      (∀ i ∈ idxs,
        existsNonempty fs (pageOutFile out_dir song_stem i) = true) →
      downloadPages net retries base out_dir song_stem idxs fs reqs =
        (idxs.map (pageOutFile out_dir song_stem), fs, reqs) := by
  intro idxs
  induction idxs with
  | nil => intro fs reqs _; rfl
  | cons idx rest ih =>
    intro fs reqs h
    rw [downloadPages, if_pos (h idx (List.mem_cons_self idx rest)),
      ih fs reqs (fun j hj => h j (List.mem_cons_of_mem idx hj))]
    rfl

/-- Claim C1 (amended): if for every requested page index a nonempty file
already exists at its deterministic output path, then re-running
download_assets with the same options, base URL, output directory, page
indices and stem issues zero network requests, provided the requested
format set names no auxiliary format (mxl, mid, midi): every page is
skipped via the on-disk presence check and recorded as retrieved.  When an
auxiliary format is requested the auxiliary asset is re-fetched on every
run, since auxiliary downloads have no presence check, so the original
for-any-format-set clause fails. -/
theorem download_skip_no_requests (options : Options)
    (base out_dir song_stem : String) (total_pages : ℤ) (idxs : List ℤ)
    (net : Net) (fs0 : FileSys)
    (hall : ∀ i ∈ idxs,
      existsNonempty fs0 (pageOutFile out_dir song_stem i) = true)
    (hmxl : ("mxl") ∉ options.formats) (hmid : ("mid") ∉ options.formats)
    (hmidi : ("midi") ∉ options.formats) :
    (download_assets options base out_dir total_pages idxs song_stem net
      fs0).requests = [] ∧
    (("svg") ∈ options.formats → 0 < total_pages →
      (download_assets options base out_dir total_pages idxs song_stem net
        fs0).svg_paths = idxs.map (pageOutFile out_dir song_stem)) := by
  have hmid2 : ¬(("mid") ∈ options.formats ∨ ("midi") ∈ options.formats) := by
    rintro (h | h)
    · exact hmid h
    · exact hmidi h
  constructor
  · simp only [download_assets]
    by_cases hs : ("svg") ∈ options.formats ∧ 0 < total_pages
    · rw [if_pos hs, downloadPages_all_skip net options.retries base out_dir
        song_stem idxs fs0 [] hall, if_neg hmxl, if_neg hmid2]
    · rw [if_neg hs, if_neg hmxl, if_neg hmid2]
  · intro hsvg htot
    simp only [download_assets]
    rw [if_pos ⟨hsvg, htot⟩, downloadPages_all_skip net options.retries base
      out_dir song_stem idxs fs0 [] hall]

theorem download_skip_no_requests_witness :
    (∀ i ∈ ([0] : List ℤ),
      existsNonempty fsPageZero (pageOutFile ("out") ("s") i) = true) ∧
    (download_assets optsSvgOnly ("https://x/y/") ("out") 1 [0] ("s")
      netDown fsPageZero).requests = [] ∧
    (download_assets optsSvgOnly ("https://x/y/") ("out") 1 [0] ("s")
      netDown fsPageZero).svg_paths = [("out/s - page - 01.svg")] := by
  have h := download_skip_no_requests optsSvgOnly ("https://x/y/") ("out")
    ("s") 1 [0] netDown fsPageZero (by decide) (by decide) (by decide)
    (by decide)
  exact ⟨by decide, h.1, (h.2 (by decide) (by decide)).trans (by rfl)⟩

/-- C1 counterexample: with formats svg and mxl requested, zero retries, and
the single requested page index 0 already on disk as a nonempty file,
download_assets still issues one network request, for the auxiliary
MusicXML asset, refuting the zero-requests-for-any-format-set claim. -/
theorem download_idempotence_counterexample :
    existsNonempty fsPageZero (pageOutFile ("out") ("s") 0) = true ∧
    (download_assets optsSvgMxl ("https://x/y/") ("out") 1 [0] ("s")
      netDown fsPageZero).requests = [("https://x/y/score.mxl")] :=
  ⟨rfl, rfl⟩

/-- Claim C2: run returns a failing exit status (1, the only nonzero code)
exactly when the Agent raised or captured no manifest URL, the Manifest
Fetcher raised, or the Asset Locator raised; per-asset download failures
and per-page assembly failures never influence the exit code, so whenever
those three stages succeed run returns 0. -/
theorem run_exit_code (env : RunEnv) (options : Options) :
    (run env options = 0 ∨ run env options = 1) ∧
    (run env options = 1 ↔
      ((∃ e, env.agent = .error e) ∨
        (∃ t, env.agent = .ok (none, t)) ∨
        (∃ su t e, env.agent = .ok (some su, t) ∧
          fetch_space env su = .error e) ∨
        (∃ su t d e, env.agent = .ok (some su, t) ∧
          fetch_space env su = .ok d ∧
          derive_base_and_pages su d = .error e))) := by
  rcases hag : env.agent with e | ⟨ospace, title⟩
  · have hrun : run env options = 1 := by rw [run, hag]
    rw [hrun]
    exact ⟨.inr rfl, ⟨fun _ => .inl ⟨e, rfl⟩, fun _ => rfl⟩⟩
  · rcases ospace with _ | su
    · have hrun : run env options = 1 := by rw [run, hag]
      rw [hrun]
      exact ⟨.inr rfl, ⟨fun _ => .inr (.inl ⟨title, rfl⟩), fun _ => rfl⟩⟩
    · rcases hf : fetch_space env su with e | d
      · have hrun : run env options = 1 := by
          rw [run, hag]
          dsimp only
          rw [hf]
        rw [hrun]
        exact ⟨.inr rfl,
          ⟨fun _ => .inr (.inr (.inl ⟨su, title, e, rfl, hf⟩)), fun _ => rfl⟩⟩
      · rcases hd : derive_base_and_pages su d with e | ⟨b, t⟩
        · have hrun : run env options = 1 := by
            rw [run, hag]
            dsimp only
            rw [hf]
            dsimp only
            rw [hd]
          rw [hrun]
          exact ⟨.inr rfl,
            ⟨fun _ => .inr (.inr (.inr ⟨su, title, d, e, rfl, hf, hd⟩)),
              fun _ => rfl⟩⟩
        · have hrun : run env options = 0 := by
            rw [run, hag]
            dsimp only
            rw [hf]
            dsimp only
            rw [hd]
          refine ⟨.inl hrun, ?_⟩
          rw [hrun]
          constructor
          · intro h01
            exact absurd h01 (by decide)
          · rintro (⟨e2, he⟩ | ⟨t2, ht⟩ | ⟨su2, t2, e2, hok, hferr⟩ |
              ⟨su2, t2, d2, e2, hok, hfok, hderr⟩)
            · exact absurd he (by simp)
            · simp at ht
            · simp only [Except.ok.injEq, Prod.mk.injEq,
                Option.some.injEq] at hok
              rcases hok with ⟨hsu, ht2⟩
              subst hsu
              rw [hf] at hferr
              exact absurd hferr (by simp)
            · simp only [Except.ok.injEq, Prod.mk.injEq,
                Option.some.injEq] at hok
              rcases hok with ⟨hsu, ht2⟩
              subst hsu
              rw [hf] at hfok
              simp only [Except.ok.injEq] at hfok
              subst hfok
              rw [hd] at hderr
              exact absurd hderr (by simp)

theorem run_exit_code_witness :
    run envAllOk optsSvgMxl = 0 ∨ run envAllOk optsSvgMxl = 1 :=
  (run_exit_code envAllOk optsSvgMxl).1

end SCASO
